import Mathlib

/-!
# Verification of the Robot_App voice-capture core

Shallow embedding of the capture/VAD/interruption core of the repository:

* `audio_recorder.py` — `AudioRecorder.record_until_silence` (hysteresis VAD
  with noise calibration, pre-roll ring, minimum-speech enforcement and
  post-silence hold), embedded over an explicit stream of read events.
* `main.py` — `SystemState` (thread-shared flags and queue draining) and the
  per-iteration behaviour of `interruption_thread`.

Wall-clock time is embedded explicitly: every potential device read carries
the clock value observed at the loop-condition check immediately preceding
it (the clock is sampled once per loop iteration).  Machine floats of the
source are embedded as exact rationals.  A read that raises is a stream
event with `ok = false`; since `record_until_silence` wraps no read in a
`try/except`, consuming such an event makes the embedded function return
`Except.error` (the exception propagates to the caller).
-/

namespace RobotApp

/-- Python `int(...)` applied to a float value: truncation toward zero. -/
def pyInt (q : ℚ) : ℤ := q.num.tdiv q.den

/-- One potential microphone read event: `t` is the wall-clock value at the
loop-condition check immediately before the read, `ok` is whether
`self._stream.read` succeeds (`false` = it raises), `data` the returned PCM
bytes, `rms` the value `audioop.rms(data, width)` of the external energy
meter for this frame. -/
structure Chunk where
  t : ℚ
  ok : Bool
  data : List ℕ
  rms : ℚ
deriving DecidableEq, Repr

/-- The recorder's core audio parameters (`AudioRecorder.__init__`). -/
structure RecCfg where
  rate : ℕ
  width : ℕ
  channels : ℕ
  chunk : ℕ
deriving DecidableEq, Repr

/-- The eight parameters of `record_until_silence`. -/
structure RecParams where
  max_duration : ℚ
  noise_calib_duration : ℚ
  start_frames : ℕ
  end_frames : ℕ
  post_silence_hold : ℚ
  pre_roll_ms : ℤ
  min_speech_after_start : ℚ
  threshold_boost : ℚ
deriving DecidableEq, Repr

/-- `bytes_per_frame = self.width * self.channels` (line 184). -/
def bytesPerFrame (cfg : RecCfg) : ℕ := cfg.width * cfg.channels

/-- `self.chunk * bytes_per_frame`, the byte size of one chunk block. -/
def blockBytes (cfg : RecCfg) : ℕ := cfg.chunk * bytesPerFrame cfg

/-- `pre_roll_bytes = int(self.rate * pre_roll_ms / 1000.0) * bytes_per_frame`
(line 186). -/
def preRollBytes (cfg : RecCfg) (p : RecParams) : ℤ :=
  pyInt ((cfg.rate : ℚ) * (p.pre_roll_ms : ℚ) / 1000) * (bytesPerFrame cfg : ℤ)

/-- `pre_roll_blocks = max(1, pre_roll_bytes // (self.chunk * bytes_per_frame))`
(line 187); Python `//` is floor division (`Int.fdiv`). -/
def preRollBlocks (cfg : RecCfg) (p : RecParams) : ℕ :=
  (max 1 ((preRollBytes cfg p).fdiv (blockBytes cfg : ℤ))).toNat

/-- `hold_bytes = int(self.rate * post_silence_hold) * bytes_per_frame`
(line 247). -/
def holdBytes (cfg : RecCfg) (p : RecParams) : ℤ :=
  pyInt ((cfg.rate : ℚ) * p.post_silence_hold) * (bytesPerFrame cfg : ℤ)

/-- `hold_blocks = max(1, hold_bytes // (self.chunk * bytes_per_frame))`
(line 248). -/
def holdBlocks (cfg : RecCfg) (p : RecParams) : ℕ :=
  (max 1 ((holdBytes cfg p).fdiv (blockBytes cfg : ℤ))).toNat

/-- `start_threshold = max(150, noise_floor * threshold_boost)` (line 203). -/
def start_threshold (noise_floor boost : ℚ) : ℚ :=
  max 150 (noise_floor * boost)

/-- `end_threshold = max(100, noise_floor * (threshold_boost * 0.55))`
(line 204); the float literal `0.55` is the rational `11/20`. -/
def end_threshold (noise_floor boost : ℚ) : ℚ :=
  max 100 (noise_floor * (boost * (11 / 20)))

/-- `collections.deque(maxlen=cap)` push: append on the right, dropping from
the left whatever exceeds the capacity. -/
def ringPush (cap : ℕ) (r : List (List ℕ)) (x : List ℕ) : List (List ℕ) :=
  (r ++ [x]).drop ((r ++ [x]).length - cap)

/-- The calibration loop (lines 195–199):
`while time.time() < calib_end: data = read(); ...` — consume stream events
while their check time is below `calib_end`; a failing read propagates.
Returns the consumed events and the remaining stream. -/
def calibrate (calibEnd : ℚ) : List Chunk → Except Unit (List Chunk × List Chunk)
  | [] => .ok ([], [])
  | c :: rest =>
    if c.t < calibEnd then
      if c.ok then
        match calibrate calibEnd rest with
        | .error e => .error e
        | .ok (cs, s) => .ok (c :: cs, s)
      else .error ()
    else .ok ([], c :: rest)

/-- `noise_floor = (sum(noise_vals) / max(1, len(noise_vals))) if noise_vals
else 50` (line 201), where `noise_vals` are the rms values of the calibration
frames. -/
def noiseFloor (cs : List Chunk) : ℚ :=
  if cs = [] then 50 else (cs.map Chunk.rms).sum / (max 1 cs.length : ℕ)

/-- `long_enough = (time.time() - start_time) >= min_speech_after_start if
start_time else False` (line 244).  Python truthiness: both `None` and the
float `0.0` select the `False` branch. -/
def longEnough (now minSpeech : ℚ) : Option ℚ → Bool
  | none => false
  | some ts => if ts = 0 then false else decide (minSpeech ≤ now - ts)

/-- The mutable locals of the main loop (lines 210–213 and 190), plus two
pieces of pure instrumentation that record observable events of the run:
`startTransitions` counts `speaking = False → True` transitions and
`endEvent` records the clock value at which the end-of-speech condition
fired (both are write-only and alter no control flow). -/
structure VadSt where
  speaking : Bool
  over_count : ℕ
  under_count : ℕ
  start_time : Option ℚ
  frames : List (List ℕ)
  startTransitions : ℕ
  endEvent : Option ℚ
deriving DecidableEq, Repr

/-- The loop-invariant quantities of the main loop, fixed after calibration. -/
structure LoopCtx where
  hardDeadline : ℚ
  startThr : ℚ
  endThr : ℚ
  minSpeech : ℚ
  startF : ℕ
  endF : ℕ
  holdB : ℕ
deriving DecidableEq, Repr

/-- One main-loop iteration body after a successful read (lines 224–245):
append the frame unconditionally, then update the hysteresis state.  Returns
the new state and whether the end-of-speech condition
(`long_enough and under_count >= end_frames`) fired. -/
def vadStep (ctx : LoopCtx) (c : Chunk) (st : VadSt) : VadSt × Bool :=
  let st := { st with frames := st.frames ++ [c.data] }
  if ¬ st.speaking then
    if ctx.startThr ≤ c.rms then
      let over := st.over_count + 1
      if ctx.startF ≤ over then
        ({ st with speaking := true, over_count := over, start_time := some c.t,
                   under_count := 0, startTransitions := st.startTransitions + 1 }, false)
      else ({ st with over_count := over }, false)
    else ({ st with over_count := 0 }, false)
  else
    let under := if c.rms < ctx.endThr then st.under_count + 1 else 0
    let fired := longEnough c.t ctx.minSpeech st.start_time && decide (ctx.endF ≤ under)
    ({ st with under_count := under,
               endEvent := if fired then some c.t else st.endEvent }, fired)

/-- The post-silence hold loop (lines 249–253): up to `hold_blocks` further
reads, each guarded by the hard deadline; a failing read propagates.
Returns the appended frame data, the consumed events and the remaining
stream. -/
def holdLoop (deadline : ℚ) : ℕ → List Chunk →
    Except Unit (List (List ℕ) × List Chunk × List Chunk)
  | 0, s => .ok ([], [], s)
  | _ + 1, [] => .ok ([], [], [])
  | n + 1, c :: rest =>
    if deadline ≤ c.t then .ok ([], [], c :: rest)
    else if c.ok then
      match holdLoop deadline n rest with
      | .error e => .error e
      | .ok (ds, cs, s) => .ok (c.data :: ds, c :: cs, s)
    else .error ()

/-- The main loop (lines 220–254): check the hard deadline, read a frame
(a failing read propagates), run the hysteresis step; when the end condition
fires, run the hold loop and stop.  Returns the final state, the consumed
events and the remaining stream. -/
def mainLoop (ctx : LoopCtx) : List Chunk → VadSt →
    Except Unit (VadSt × List Chunk × List Chunk)
  | [], st => .ok (st, [], [])
  | c :: rest, st =>
    if ctx.hardDeadline ≤ c.t then .ok (st, [], c :: rest)
    else if c.ok then
      match vadStep ctx c st with
      | (st', fired) =>
        if fired then
          match holdLoop ctx.hardDeadline ctx.holdB rest with
          | .error e => .error e
          | .ok (ds, hcs, s) => .ok ({ st' with frames := st'.frames ++ ds }, c :: hcs, s)
        else
          match mainLoop ctx rest st' with
          | .error e => .error e
          | .ok (stF, cs, s) => .ok (stF, c :: cs, s)
    else .error ()

/-- Everything observable about one `record_until_silence` call. -/
structure RecOut where
  st : VadSt
  bytesOut : List ℕ
  calibConsumed : List Chunk
  mainConsumed : List Chunk
  noise_floor : ℚ
  startThr : ℚ
  endThr : ℚ
  rest : List Chunk
deriving DecidableEq, Repr

/-- The main-loop context derived after calibration (lines 201–204 and 214):
`noise_floor`, the two thresholds, `hard_deadline = time.time() + max_duration`
(`tDeadlineBase` is the clock value sampled at line 214). -/
def recCtx (cfg : RecCfg) (p : RecParams) (tDeadlineBase : ℚ) (cs : List Chunk) : LoopCtx :=
  { hardDeadline := tDeadlineBase + p.max_duration
    startThr := start_threshold (noiseFloor cs) p.threshold_boost
    endThr := end_threshold (noiseFloor cs) p.threshold_boost
    minSpeech := p.min_speech_after_start
    startF := p.start_frames
    endF := p.end_frames
    holdB := holdBlocks cfg p }

/-- The pre-roll ring after the calibration frames `cs` were pushed
(line 199): a deque of capacity `pre_roll_blocks`. -/
def recRing (cfg : RecCfg) (p : RecParams) (cs : List Chunk) : List (List ℕ) :=
  cs.foldl (fun r c => ringPush (preRollBlocks cfg p) r c.data) []

/-- The main-loop state at line 219: fresh counters, and the output buffer
seeded with the pre-roll ring (line 217, `frames.extend(list(ring_pre))`). -/
def recSt0 (cfg : RecCfg) (p : RecParams) (cs : List Chunk) : VadSt :=
  { speaking := false, over_count := 0, under_count := 0, start_time := none,
    frames := recRing cfg p cs, startTransitions := 0, endEvent := none }

/-- `AudioRecorder.record_until_silence` (lines 148–256) over an explicit
stream of read events.  `t0` is the clock value at entry (used for
`calib_end = time.time() + max(0.0, noise_calib_duration)`, line 193) and
`tDeadlineBase` the clock value sampled between the calibration loop and the
main loop (`hard_deadline = time.time() + max_duration`, line 214). -/
def record_until_silence (cfg : RecCfg) (p : RecParams) (t0 tDeadlineBase : ℚ)
    (stream : List Chunk) : Except Unit RecOut :=
  match calibrate (t0 + max 0 p.noise_calib_duration) stream with
  | .error e => .error e
  | .ok (cs, s1) =>
    match mainLoop (recCtx cfg p tDeadlineBase cs) s1 (recSt0 cfg p cs) with
    | .error e => .error e
    | .ok (stF, mcs, s) =>
      -- `return b"".join(frames) if frames else b""` (line 256)
      .ok { st := stF, bytesOut := stF.frames.flatten, calibConsumed := cs,
            mainConsumed := mcs, noise_floor := noiseFloor cs,
            startThr := (recCtx cfg p tDeadlineBase cs).startThr,
            endThr := (recCtx cfg p tDeadlineBase cs).endThr, rest := s }

/-! ## Helper lemmas -/

theorem drop_len_sub_one {α : Type} (l : List α) (h : l ≠ []) :
    l.drop (l.length - 1) = [l.getLast h] := by
  induction l with
  | nil => simp at h
  | cons a t ih =>
    cases t with
    | nil => simp
    | cons b t' =>
      simp only [List.length_cons, Nat.add_sub_cancel, List.drop_succ_cons]
      rw [List.getLast_cons (by simp)]
      simpa using ih (by simp)

theorem ringPush_step (cap : ℕ) (zs : List (List ℕ)) (y : List ℕ) :
    ringPush cap (zs.drop (zs.length - cap)) y
      = (zs ++ [y]).drop ((zs ++ [y]).length - cap) := by
  unfold ringPush
  simp only [List.drop_append_eq_append_drop, List.drop_drop, List.length_append,
    List.length_drop, List.length_cons, List.length_nil]
  congr 1
  · congr 1
    omega
  · congr 1
    omega

theorem foldl_ringPush (cap : ℕ) (ys zs : List (List ℕ)) :
    ys.foldl (ringPush cap) (zs.drop (zs.length - cap))
      = (zs ++ ys).drop ((zs ++ ys).length - cap) := by
  induction ys generalizing zs with
  | nil => simp
  | cons y ys ih =>
    rw [List.foldl_cons, ringPush_step]
    have h := ih (zs ++ [y])
    simpa [List.append_assoc] using h

/-- A deque of capacity `cap`, filled from empty by pushing `ys` in order,
holds exactly the last `cap` elements of `ys`, in order. -/
theorem foldl_ringPush_nil (cap : ℕ) (ys : List (List ℕ)) :
    ys.foldl (ringPush cap) [] = ys.drop (ys.length - cap) := by
  have h := foldl_ringPush cap ys []
  simpa using h

theorem longEnough_eq_true {now ms : ℚ} {sto : Option ℚ}
    (h : longEnough now ms sto = true) :
    ∃ ts, sto = some ts ∧ ts ≠ 0 ∧ ms ≤ now - ts := by
  cases sto with
  | none => simp [longEnough] at h
  | some ts =>
    by_cases hz : ts = 0
    · simp [longEnough, hz] at h
    · simp only [longEnough, hz, if_false, decide_eq_true_eq] at h
      exact ⟨ts, rfl, hz, h⟩

theorem vadStep_frames (ctx : LoopCtx) (c : Chunk) (st : VadSt) :
    (vadStep ctx c st).1.frames = st.frames ++ [c.data] := by
  simp only [vadStep]
  split_ifs <;> rfl

theorem vadStep_fired (ctx : LoopCtx) (c : Chunk) (st : VadSt)
    (h : (vadStep ctx c st).2 = true) :
    (vadStep ctx c st).1.endEvent = some c.t ∧
    (vadStep ctx c st).1.start_time = st.start_time ∧
    longEnough c.t ctx.minSpeech st.start_time = true := by
  simp only [vadStep] at h ⊢
  split_ifs at h ⊢ <;> simp_all

theorem vadStep_not_fired (ctx : LoopCtx) (c : Chunk) (st : VadSt)
    (h : (vadStep ctx c st).2 = false) :
    (vadStep ctx c st).1.endEvent = st.endEvent := by
  simp only [vadStep] at h ⊢
  split_ifs at h ⊢ <;> simp_all

/-- Every event the calibration loop consumes was checked against
`calib_end` and read successfully. -/
theorem calibrate_consumed (ce : ℚ) (s : List Chunk) {cs rest : List Chunk}
    (h : calibrate ce s = .ok (cs, rest)) :
    ∀ c ∈ cs, c.t < ce ∧ c.ok = true := by
  induction s generalizing cs rest with
  | nil =>
    simp only [calibrate, Except.ok.injEq, Prod.mk.injEq] at h
    simp [← h.1]
  | cons c s ih =>
    rw [calibrate] at h
    by_cases ht : c.t < ce
    · simp only [ht, if_true] at h
      by_cases hok : c.ok
      · simp only [hok, if_true] at h
        cases hc : calibrate ce s with
        | error e => rw [hc] at h; cases h
        | ok v =>
          rw [hc] at h
          obtain ⟨cs', rest'⟩ := v
          simp only [Except.ok.injEq, Prod.mk.injEq] at h
          obtain ⟨h1, _⟩ := h
          intro d hd
          rw [← h1] at hd
          rcases List.mem_cons.mp hd with hd | hd
          · subst hd; exact ⟨ht, hok⟩
          · exact ih hc d hd
      · simp [hok] at h
    · simp only [ht, if_false, Except.ok.injEq, Prod.mk.injEq] at h
      simp [← h.1]

/-- Every event the post-silence hold loop consumes was checked against the
hard deadline and read successfully, and its data is what the loop appends. -/
theorem holdLoop_consumed (d : ℚ) (n : ℕ) (s : List Chunk)
    {ds : List (List ℕ)} {cs rest : List Chunk}
    (h : holdLoop d n s = .ok (ds, cs, rest)) :
    ds = cs.map Chunk.data ∧ ∀ c ∈ cs, c.t < d ∧ c.ok = true := by
  induction n generalizing s ds cs rest with
  | zero =>
    simp only [holdLoop, Except.ok.injEq, Prod.mk.injEq] at h
    simp [← h.1, ← h.2.1]
  | succ n ih =>
    cases s with
    | nil =>
      simp only [holdLoop, Except.ok.injEq, Prod.mk.injEq] at h
      simp [← h.1, ← h.2.1]
    | cons c s =>
      rw [holdLoop] at h
      by_cases ht : d ≤ c.t
      · simp only [ht, if_true, Except.ok.injEq, Prod.mk.injEq] at h
        simp [← h.1, ← h.2.1]
      · simp only [ht, if_false] at h
        by_cases hok : c.ok
        · simp only [hok, if_true] at h
          cases hh : holdLoop d n s with
          | error e => rw [hh] at h; cases h
          | ok v =>
            rw [hh] at h
            obtain ⟨ds', cs', rest'⟩ := v
            simp only [Except.ok.injEq, Prod.mk.injEq] at h
            obtain ⟨h1, h2, _⟩ := h
            obtain ⟨ih1, ih2⟩ := ih s hh
            subst h1 h2
            refine ⟨by simp [ih1], ?_⟩
            intro e he
            rcases List.mem_cons.mp he with he | he
            · subst he; exact ⟨lt_of_not_le ht, hok⟩
            · exact ih2 e he
        · simp [hok] at h

/-- Every event the main loop (hold loop included) consumes was checked
against the hard deadline and read successfully. -/
theorem mainLoop_consumed (ctx : LoopCtx) (s : List Chunk) (st : VadSt)
    {stF : VadSt} {cs rest : List Chunk}
    (h : mainLoop ctx s st = .ok (stF, cs, rest)) :
    ∀ c ∈ cs, c.t < ctx.hardDeadline ∧ c.ok = true := by
  induction s generalizing st cs rest stF with
  | nil =>
    simp only [mainLoop, Except.ok.injEq, Prod.mk.injEq] at h
    simp [← h.2.1]
  | cons c s ih =>
    rw [mainLoop] at h
    by_cases ht : ctx.hardDeadline ≤ c.t
    · simp only [ht, if_true, Except.ok.injEq, Prod.mk.injEq] at h
      simp [← h.2.1]
    · simp only [ht, if_false] at h
      by_cases hok : c.ok
      · simp only [hok, if_true] at h
        cases hfired : (vadStep ctx c st).2 with
        | true =>
          simp only [hfired] at h
          cases hh : holdLoop ctx.hardDeadline ctx.holdB s with
          | error e => simp only [hh, if_true] at h; cases h
          | ok v =>
            obtain ⟨ds', hcs', rest'⟩ := v
            simp only [hh, if_true, Except.ok.injEq, Prod.mk.injEq] at h
            obtain ⟨_, h2, _⟩ := h
            intro e he
            rw [← h2] at he
            rcases List.mem_cons.mp he with he | he
            · subst he; exact ⟨lt_of_not_le ht, hok⟩
            · exact (holdLoop_consumed _ _ _ hh).2 e he
        | false =>
          simp only [hfired, Bool.false_eq_true, if_false] at h
          cases hm : mainLoop ctx s (vadStep ctx c st).1 with
          | error e => simp only [hm] at h; cases h
          | ok v =>
            obtain ⟨stF', cs', rest'⟩ := v
            simp only [hm, Except.ok.injEq, Prod.mk.injEq] at h
            intro e he
            rw [← h.2.1] at he
            rcases List.mem_cons.mp he with he | he
            · subst he; exact ⟨lt_of_not_le ht, hok⟩
            · exact ih _ hm e he
      · simp [hok] at h

/-- The main loop only appends to the output buffer: whatever `frames` holds
on entry is a prefix of the final `frames`. -/
theorem mainLoop_frames (ctx : LoopCtx) (s : List Chunk) (st : VadSt)
    {stF : VadSt} {cs rest : List Chunk}
    (h : mainLoop ctx s st = .ok (stF, cs, rest)) :
    ∃ l, stF.frames = st.frames ++ l := by
  induction s generalizing st cs rest stF with
  | nil =>
    simp only [mainLoop, Except.ok.injEq, Prod.mk.injEq] at h
    exact ⟨[], by simp [← h.1]⟩
  | cons c s ih =>
    rw [mainLoop] at h
    by_cases ht : ctx.hardDeadline ≤ c.t
    · simp only [ht, if_true, Except.ok.injEq, Prod.mk.injEq] at h
      exact ⟨[], by simp [← h.1]⟩
    · simp only [ht, if_false] at h
      by_cases hok : c.ok
      · simp only [hok, if_true] at h
        cases hfired : (vadStep ctx c st).2 with
        | true =>
          simp only [hfired] at h
          cases hh : holdLoop ctx.hardDeadline ctx.holdB s with
          | error e => simp only [hh, if_true] at h; cases h
          | ok v =>
            obtain ⟨ds', hcs', rest'⟩ := v
            simp only [hh, if_true, Except.ok.injEq, Prod.mk.injEq] at h
            obtain ⟨h1, _, _⟩ := h
            refine ⟨[c.data] ++ ds', ?_⟩
            rw [← h1]
            simp [vadStep_frames]
        | false =>
          simp only [hfired, Bool.false_eq_true, if_false] at h
          cases hm : mainLoop ctx s (vadStep ctx c st).1 with
          | error e => simp only [hm] at h; cases h
          | ok v =>
            obtain ⟨stF', cs', rest'⟩ := v
            simp only [hm, Except.ok.injEq, Prod.mk.injEq] at h
            obtain ⟨l, hl⟩ := ih _ hm
            refine ⟨[c.data] ++ l, ?_⟩
            rw [← h.1, hl, vadStep_frames]
            simp
      · simp [hok] at h

/-- If the run ends through the end-of-speech condition (`endEvent` was
recorded at clock value `tEnd`), then a start transition happened at some
nonzero clock value `ts` with `tEnd - ts ≥ min_speech_after_start`. -/
theorem mainLoop_endEvent (ctx : LoopCtx) (s : List Chunk) (st : VadSt)
    {stF : VadSt} {cs rest : List Chunk}
    (h : mainLoop ctx s st = .ok (stF, cs, rest))
    (h0 : st.endEvent = none) {tEnd : ℚ} (hE : stF.endEvent = some tEnd) :
    ∃ ts, stF.start_time = some ts ∧ ts ≠ 0 ∧ ctx.minSpeech ≤ tEnd - ts := by
  induction s generalizing st cs rest stF with
  | nil =>
    simp only [mainLoop, Except.ok.injEq, Prod.mk.injEq] at h
    rw [← h.1, h0] at hE
    cases hE
  | cons c s ih =>
    rw [mainLoop] at h
    by_cases ht : ctx.hardDeadline ≤ c.t
    · simp only [ht, if_true, Except.ok.injEq, Prod.mk.injEq] at h
      rw [← h.1, h0] at hE
      cases hE
    · simp only [ht, if_false] at h
      by_cases hok : c.ok
      · simp only [hok, if_true] at h
        cases hfired : (vadStep ctx c st).2 with
        | true =>
          simp only [hfired] at h
          cases hh : holdLoop ctx.hardDeadline ctx.holdB s with
          | error e => simp only [hh, if_true] at h; cases h
          | ok v =>
            obtain ⟨ds', hcs', rest'⟩ := v
            simp only [hh, if_true, Except.ok.injEq, Prod.mk.injEq] at h
            obtain ⟨h1, _, _⟩ := h
            obtain ⟨he, hst, hle⟩ := vadStep_fired ctx c st hfired
            obtain ⟨ts, hts, hz, hms⟩ := longEnough_eq_true hle
            rw [← h1] at hE
            simp only [he] at hE
            have hte : tEnd = c.t := (Option.some.inj hE).symm
            exact ⟨ts, by rw [← h1]; simpa [hst] using hts, hz, hte ▸ hms⟩
        | false =>
          simp only [hfired, Bool.false_eq_true, if_false] at h
          cases hm : mainLoop ctx s (vadStep ctx c st).1 with
          | error e => simp only [hm] at h; cases h
          | ok v =>
            obtain ⟨stF', cs', rest'⟩ := v
            simp only [hm, Except.ok.injEq, Prod.mk.injEq] at h
            have h0' : (vadStep ctx c st).1.endEvent = none := by
              rw [vadStep_not_fired ctx c st hfired, h0]
            exact h.1 ▸ ih _ hm h0' (h.1 ▸ hE)
      · simp [hok] at h

/-- Unfolding of a successful `record_until_silence` run into its phases. -/
theorem record_ok_elim {cfg : RecCfg} {p : RecParams} {t0 tD : ℚ} {stream : List Chunk}
    {out : RecOut} (h : record_until_silence cfg p t0 tD stream = .ok out) :
    ∃ cs s1 stF mcs s,
      calibrate (t0 + max 0 p.noise_calib_duration) stream = .ok (cs, s1) ∧
      mainLoop (recCtx cfg p tD cs) s1 (recSt0 cfg p cs) = .ok (stF, mcs, s) ∧
      out = { st := stF, bytesOut := stF.frames.flatten, calibConsumed := cs,
              mainConsumed := mcs, noise_floor := noiseFloor cs,
              startThr := (recCtx cfg p tD cs).startThr,
              endThr := (recCtx cfg p tD cs).endThr, rest := s } := by
  unfold record_until_silence at h
  cases hc : calibrate (t0 + max 0 p.noise_calib_duration) stream with
  | error e => simp only [hc] at h; cases h
  | ok v =>
    obtain ⟨cs, s1⟩ := v
    simp only [hc] at h
    cases hm : mainLoop (recCtx cfg p tD cs) s1 (recSt0 cfg p cs) with
    | error e => simp only [hm] at h; cases h
    | ok w =>
      obtain ⟨stF, mcs, s⟩ := w
      simp only [hm, Except.ok.injEq] at h
      exact ⟨cs, s1, stF, mcs, s, rfl, hm, h.symm⟩

/-! ## `main.py`: SystemState and the interruption thread -/

/-- The thread-shared state of `main.py`: the lock-protected flags of
`SystemState` (lines 40–45) together with the one inter-thread queue
(`audio_queue`, line 138, elements abstracted). All methods run while
holding `self.lock`; the embedding is the sequential state change they
perform under the lock. -/
structure SystemState where
  is_listening : Bool
  is_active : Bool
  is_speaking : Bool
  allow_listening_to_user : Bool
  audio_queue : List ℕ
deriving DecidableEq, Repr

/-- `SystemState.pause_listening` (lines 47–50). -/
def SystemState.pause_listening (s : SystemState) : SystemState :=
  { s with is_listening := false }

/-- `SystemState.resume_listening` (lines 52–55). -/
def SystemState.resume_listening (s : SystemState) : SystemState :=
  { s with is_listening := true }

/-- `SystemState.pause_interruption` (lines 62–65). -/
def SystemState.pause_interruption (s : SystemState) : SystemState :=
  { s with allow_listening_to_user := false }

/-- `SystemState.resume_interruption` (lines 67–72):
`self.allow_listening_to_user = allow_interruption and True`, where
`allow_interruption` is the module-level flag fixed by
`initialize_settings`. -/
def SystemState.resume_interruption (allow_interruption : Bool) (s : SystemState) : SystemState :=
  { s with allow_listening_to_user := allow_interruption && true }

/-- `SystemState.clear_all_queues` (lines 117–122, the second definition,
which overrides the first): drain `audio_queue` until empty. -/
def SystemState.clear_all_queues (s : SystemState) : SystemState :=
  { s with audio_queue := [] }

/-- `SystemState.interrupt` (lines 90–105): under the lock, stop current
playback and flush the player queue (external calls on `sd` and
`audio_player`, wrapped in bare `try/except pass`, so they touch no state
here and can raise nothing), then `clear_all_queues`, then
`is_speaking = False`, `is_listening = True`. -/
def SystemState.interrupt (s : SystemState) : SystemState :=
  { s.clear_all_queues with is_speaking := false, is_listening := true }

/-- Externally observable actions of one `interruption_thread` iteration. -/
inductive CoordEffect
  | micRead
  | sleep (seconds : ℚ)
  | playBlocking
deriving DecidableEq, Repr

/-- One iteration of the `interruption_thread` loop body (lines 358–399),
with its external collaborators abstracted as inputs: `recResult` is what
`recorder.record_until_silence` returns for the short window (`.error` = it
raises), `sttResult` what `stt.transcribe` returns, and `isStop` the
classifier `stopCommandDetector.is_stop_with_optional_wake`.  Returns the
new shared state and the list of performed effects, in order.
When `allow_listening_to_user` is false the body is skipped entirely —
there is no `else` branch, no sleep, and no microphone read. -/
def interruption_iteration (st : SystemState)
    (recResult : Except Unit (List ℕ)) (sttResult : Except Unit String)
    (isStop : String → Bool) : SystemState × List CoordEffect :=
  if st.allow_listening_to_user then
    match recResult with
    | .error _ => (st, [.micRead, .sleep (1 / 10)])      -- outer except: time.sleep(0.1)
    | .ok audio_buf =>
      if audio_buf = [] then (st, [.micRead, .sleep (1 / 20)])  -- time.sleep(0.05); continue
      else
        match sttResult with
        | .error _ => (st, [.micRead])                   -- inner except: continue
        | .ok transcript =>
          if transcript = "" then (st, [.micRead])       -- if not partial: continue
          else if isStop transcript then
            -- interrupt(); play_blocking(...); resume_listening(); time.sleep(0.3)
            (st.interrupt.resume_listening, [.micRead, .playBlocking, .sleep (3 / 10)])
          else (st, [.micRead])
  else (st, [])

/-! ## Concrete inputs used by witnesses and counterexamples -/

/-- The repository's audio configuration (`Config`: 16 kHz, 16-bit samples,
mono, 1024-sample chunks). -/
def cfgA : RecCfg := { rate := 16000, width := 2, channels := 1, chunk := 1024 }

/-- Parameters of a short run that does start and end a speech segment with
`min_speech_after_start = 5` seconds. -/
def pW2 : RecParams :=
  { max_duration := 100, noise_calib_duration := 0, start_frames := 1,
    end_frames := 1, post_silence_hold := 0, pre_roll_ms := 200,
    min_speech_after_start := 5, threshold_boost := 0 }

/-- Events for `pW2` (no calibration, default floor 50, thresholds 150/100):
speech starts at `t = 1`, energy drops at once, `end_frames` is already met
at `t = 2`, but the end condition can only fire once 5 seconds have passed —
at `t = 7`; one post-silence-hold block follows. -/
def streamW2 : List Chunk :=
  [ { t := 1, ok := true, data := [1], rms := 200 },
    { t := 2, ok := true, data := [2], rms := 0 },
    { t := 7, ok := true, data := [3], rms := 0 },
    { t := 8, ok := true, data := [4], rms := 0 } ]

/-- The silent-room scenario parameters of the spec: boost 2.0, 3 start
frames, 15 end frames, no minimum speech, 300 ms pre-roll, 0.35 s hold. -/
def pS4 : RecParams :=
  { max_duration := 1000, noise_calib_duration := 4, start_frames := 3,
    end_frames := 15, post_silence_hold := 35/100, pre_roll_ms := 300,
    min_speech_after_start := 0, threshold_boost := 2 }

/-- The silent-room scenario events: 3 calibration frames at energy 50
(noise floor 50, thresholds 150/100, all three fit in the 4-block pre-roll
ring), then 3 frames at energy 40 (below start), 5 at energy 200 (start
fires at the third), 15 at energy 30 (end fires at the fifteenth), then
frames for the 5 post-silence-hold blocks and one spare event. -/
def streamS4 : List Chunk :=
  [ { t := 1, ok := true, data := [0], rms := 50 },
    { t := 2, ok := true, data := [1], rms := 50 },
    { t := 3, ok := true, data := [2], rms := 50 },
    { t := 10, ok := true, data := [100], rms := 40 },
    { t := 11, ok := true, data := [101], rms := 40 },
    { t := 12, ok := true, data := [102], rms := 40 },
    { t := 13, ok := true, data := [200], rms := 200 },
    { t := 14, ok := true, data := [201], rms := 200 },
    { t := 15, ok := true, data := [202], rms := 200 },
    { t := 16, ok := true, data := [203], rms := 200 },
    { t := 17, ok := true, data := [204], rms := 200 },
    { t := 18, ok := true, data := [300], rms := 30 },
    { t := 19, ok := true, data := [301], rms := 30 },
    { t := 20, ok := true, data := [302], rms := 30 },
    { t := 21, ok := true, data := [303], rms := 30 },
    { t := 22, ok := true, data := [304], rms := 30 },
    { t := 23, ok := true, data := [305], rms := 30 },
    { t := 24, ok := true, data := [306], rms := 30 },
    { t := 25, ok := true, data := [307], rms := 30 },
    { t := 26, ok := true, data := [308], rms := 30 },
    { t := 27, ok := true, data := [309], rms := 30 },
    { t := 28, ok := true, data := [310], rms := 30 },
    { t := 29, ok := true, data := [311], rms := 30 },
    { t := 30, ok := true, data := [312], rms := 30 },
    { t := 31, ok := true, data := [313], rms := 30 },
    { t := 32, ok := true, data := [314], rms := 30 },
    { t := 33, ok := true, data := [400], rms := 0 },
    { t := 34, ok := true, data := [401], rms := 0 },
    { t := 35, ok := true, data := [402], rms := 0 },
    { t := 36, ok := true, data := [403], rms := 0 },
    { t := 37, ok := true, data := [404], rms := 0 },
    { t := 38, ok := true, data := [500], rms := 0 } ]

/-- A configuration with a 10-second calibration window and a 1-second hard
cap, used to separate the claimed return bound from the real one. -/
def pX3 : RecParams :=
  { max_duration := 1, noise_calib_duration := 10, start_frames := 3,
    end_frames := 15, post_silence_hold := 0, pre_roll_ms := 300,
    min_speech_after_start := 18/10, threshold_boost := 2 }

/-- Quiet events one second apart: nine consumed by the ten-second
calibration window, one consumed by the main loop at `t = 10` (the hard
deadline is `10 + 1 = 11`), and one at `t = 11` that fails the deadline
check. -/
def streamX3 : List Chunk :=
  [ { t := 1, ok := true, data := [0], rms := 0 },
    { t := 2, ok := true, data := [1], rms := 0 },
    { t := 3, ok := true, data := [2], rms := 0 },
    { t := 4, ok := true, data := [3], rms := 0 },
    { t := 5, ok := true, data := [4], rms := 0 },
    { t := 6, ok := true, data := [5], rms := 0 },
    { t := 7, ok := true, data := [6], rms := 0 },
    { t := 8, ok := true, data := [7], rms := 0 },
    { t := 9, ok := true, data := [8], rms := 0 },
    { t := 10, ok := true, data := [9], rms := 0 },
    { t := 11, ok := true, data := [10], rms := 0 } ]

/-- Each event of the stream occurs within `dt` of the previous one (of
`prev` for the first): every read, check to check, takes at most `dt`. -/
def gapsLE (dt : ℚ) : ℚ → List Chunk → Bool
  | _, [] => true
  | prev, c :: rest => decide (c.t - prev ≤ dt) && gapsLE dt c.t rest

/-- A run with `pre_roll_ms = 0` and two calibration frames: the ring keeps
one block, so only the second calibration frame is seeded. -/
def p10 : RecParams :=
  { max_duration := 100, noise_calib_duration := 4, start_frames := 1,
    end_frames := 1, post_silence_hold := 0, pre_roll_ms := 0,
    min_speech_after_start := 0, threshold_boost := 2 }

/-- Events for `p10`: two calibration frames (floor 55, thresholds 150/100),
one loud frame starting speech at `t = 10`, one quiet frame ending it, one
post-silence-hold block. -/
def stream10 : List Chunk :=
  [ { t := 1, ok := true, data := [10], rms := 50 },
    { t := 2, ok := true, data := [11], rms := 60 },
    { t := 10, ok := true, data := [12], rms := 200 },
    { t := 11, ok := true, data := [13], rms := 0 },
    { t := 12, ok := true, data := [14], rms := 0 } ]

/-- A shared state whose barge-in gate is disabled. -/
def sGateOff : SystemState :=
  { is_listening := true, is_active := true, is_speaking := false,
    allow_listening_to_user := false, audio_queue := [] }

/-! ## The claims -/

/-- C1: for every noise floor ≥ 0 and every `threshold_boost` ≥ 0, the
thresholds derived inside `record_until_silence` (lines 203–204) satisfy
`start_threshold ≥ end_threshold`: the hysteresis invariant holds after
derivation for all valid configurations. -/
theorem C1_hysteresis_invariant (nf boost : ℚ) (hnf : 0 ≤ nf) (hb : 0 ≤ boost) :
    end_threshold nf boost ≤ start_threshold nf boost := by
  unfold start_threshold end_threshold
  apply max_le
  · exact le_trans (by norm_num) (le_max_left (150 : ℚ) (nf * boost))
  · refine le_trans ?_ (le_max_right (150 : ℚ) (nf * boost))
    nlinarith

/-- C1 witness: the derivation at noise floor 50 and boost 2 (the spec's
silent-room scenario) satisfies the invariant. -/
theorem C1_hysteresis_invariant_witness :
    (0:ℚ) ≤ 50 ∧ (0:ℚ) ≤ 2 ∧ end_threshold 50 2 ≤ start_threshold 50 2 :=
  ⟨by norm_num, by norm_num, C1_hysteresis_invariant 50 2 (by norm_num) (by norm_num)⟩

/-- C2: whenever a `record_until_silence` run enters the end-of-speech
termination sequence (the instrumented `endEvent` records the clock value
`tEnd` at which `long_enough and under_count >= end_frames` fired, line 245)
and its start transition was recorded at clock value `ts` (`start_time`,
line 233), then at least `min_speech_after_start` seconds elapsed between
the start transition and the termination — even if `end_frames` consecutive
quiet frames had accumulated earlier. -/
theorem C2_min_speech_enforced (cfg : RecCfg) (p : RecParams) (t0 tD : ℚ)
    (stream : List Chunk) (tEnd ts : ℚ)
    (hE : (record_until_silence cfg p t0 tD stream).map (fun o => o.st.endEvent)
            = .ok (some tEnd))
    (hS : (record_until_silence cfg p t0 tD stream).map (fun o => o.st.start_time)
            = .ok (some ts)) :
    ts ≠ 0 ∧ p.min_speech_after_start ≤ tEnd - ts := by
  cases hr : record_until_silence cfg p t0 tD stream with
  | error e => rw [hr] at hE; cases hE
  | ok out =>
    rw [hr] at hE hS
    simp only [Except.map, Except.ok.injEq] at hE hS
    obtain ⟨cs, s1, stF, mcs, s, hc, hm, ho⟩ := record_ok_elim hr
    have hE' : stF.endEvent = some tEnd := by rw [ho] at hE; exact hE
    have hS' : stF.start_time = some ts := by rw [ho] at hS; exact hS
    obtain ⟨ts', hts', hz, hge⟩ := mainLoop_endEvent _ _ _ hm rfl hE'
    have : ts' = ts := by rw [hts'] at hS'; exact Option.some.inj hS'
    subst this
    exact ⟨hz, hge⟩

/-- C2 witness: in the `streamW2` run, `end_frames = 1` is already met one
second after the start transition at `ts = 1`, yet termination fires only at
`tEnd = 7`, honouring the 5-second minimum. -/
theorem C2_min_speech_enforced_witness :
    (1:ℚ) ≠ 0 ∧ pW2.min_speech_after_start ≤ (7:ℚ) - 1 :=
  C2_min_speech_enforced cfgA pW2 0 0 streamW2 7 1 (by with_unfolding_all rfl)
    (by with_unfolding_all rfl)

/-- C3 counterexample: the claim bounds the return time by
`max_duration + post_silence_hold + one frame's read time` from the call —
but the hard deadline is based on a clock sampled only *after* calibration
(line 214), so calibration time is extra.  In the `pX3` run (`t0 = 0`,
10-second calibration, `max_duration = 1`, `post_silence_hold = 0`, every
read taking at most 1 second per `gapsLE`), the function still consumes a
read whose deadline check happens at `t = 10`, long after the claimed
return bound `max_duration + post_silence_hold + 1 = 2`. -/
theorem C3_hard_deadline_counterexample :
    gapsLE 1 0 streamX3 = true ∧
    (record_until_silence cfgA pX3 0 10 streamX3).map
        (fun o => (o.calibConsumed ++ o.mainConsumed).any
          (fun c => decide (pX3.max_duration + pX3.post_silence_hold + 1 < c.t)))
      = .ok true :=
  ⟨by with_unfolding_all rfl, by with_unfolding_all rfl⟩

/-- C3 amended: every read `record_until_silence` performs is checked in
before `t0 + max 0 noise_calib_duration + dt + max_duration`, where `dt`
bounds one frame's read time and the deadline-base clock sample (line 214)
happens within one read of calibration end; hence, reads taking at most
`dt`, the call returns within
`max 0 noise_calib_duration + max_duration + 2·dt` of being called — it
never blocks indefinitely (the hold loop is also deadline-checked). -/
theorem C3_hard_deadline_amended (cfg : RecCfg) (p : RecParams) (t0 tD dt : ℚ)
    (stream : List Chunk) (consumed : List Chunk)
    (hdt : 0 ≤ dt) (hmd : 0 ≤ p.max_duration)
    (htD : tD ≤ t0 + max 0 p.noise_calib_duration + dt)
    (h : (record_until_silence cfg p t0 tD stream).map
          (fun o => o.calibConsumed ++ o.mainConsumed) = .ok consumed) :
    ∀ c ∈ consumed, c.t < t0 + max 0 p.noise_calib_duration + dt + p.max_duration := by
  cases hr : record_until_silence cfg p t0 tD stream with
  | error e => rw [hr] at h; cases h
  | ok out =>
    rw [hr] at h
    simp only [Except.map, Except.ok.injEq] at h
    obtain ⟨cs, s1, stF, mcs, s, hc, hm, ho⟩ := record_ok_elim hr
    intro c hcmem
    rw [← h, ho] at hcmem
    simp only at hcmem
    rcases List.mem_append.mp hcmem with hmem | hmem
    · have hlt := (calibrate_consumed _ _ hc c hmem).1
      linarith
    · have hlt := (mainLoop_consumed _ _ _ hm c hmem).1
      have hd : (recCtx cfg p tD cs).hardDeadline = tD + p.max_duration := rfl
      rw [hd] at hlt
      linarith

/-- The events of `streamX3` consumed by the `pX3` run (nine calibration
reads plus the main-loop read at `t = 10`). -/
def consumedX3 : List Chunk := streamX3.take 10

/-- C3 amended witness: the read checked in at `t = 10` is within the
amended bound `0 + max 0 10 + 1 + 1 = 12`. -/
theorem C3_hard_deadline_amended_witness :
    ({ t := 10, ok := true, data := [9], rms := 0 } : Chunk).t
      < 0 + max 0 pX3.noise_calib_duration + 1 + pX3.max_duration :=
  C3_hard_deadline_amended cfgA pX3 0 10 1 streamX3 consumedX3 (by norm_num)
    (by norm_num [pX3]) (by norm_num [pX3]) (by with_unfolding_all rfl)
    { t := 10, ok := true, data := [9], rms := 0 } (by with_unfolding_all decide)

/-- C4 counterexample: in the spec's silent-room scenario run (`pS4`,
`streamS4`), the returned buffer holds 31 blocks — 3 pre-roll blocks, the 3
initial below-start blocks (appended unconditionally, line 226), 5 loud
blocks, 15 trailing quiet blocks and 5 post-silence-hold blocks — whereas
the claimed sum "pre-roll + loud + trailing quiet + hold" is
3 + 5 + 15 + 5 = 28.  (The speaking flag does transition exactly once.) -/
theorem C4_silent_room_counterexample :
    (record_until_silence cfgA pS4 0 4 streamS4).map
        (fun o => (o.st.frames.length, o.st.startTransitions)) = .ok (31, 1) ∧
    31 ≠ 3 + 5 + 15 + 5 :=
  ⟨by with_unfolding_all rfl, by decide⟩

/-- C4 amended: in the silent-room scenario the returned buffer length
equals pre-roll frames (3) plus *all* main-loop frames — the 3 initial
below-start frames included — plus the loud frames (5), the 15 trailing
quiet frames and the post-silence-hold frames (5), and the speaking flag
transitions from false to true exactly once. -/
theorem C4_silent_room_amended :
    (record_until_silence cfgA pS4 0 4 streamS4).map
        (fun o => (o.st.frames.length, o.st.startTransitions))
      = .ok (3 + (3 + 5 + 15) + 5, 1) := by
  with_unfolding_all rfl

/-- C5: for every call whose calibration phase consumed the frames `cs`
(at least one), the tail of `cs` that fits the pre-roll ring — its last
`pre_roll_blocks` frames, i.e. up to the configured `pre_roll_ms` of audio —
appears as a prefix of the returned byte buffer, in original capture
order. -/
theorem C5_pre_roll_prefix (cfg : RecCfg) (p : RecParams) (t0 tD : ℚ)
    (stream : List Chunk) (cs : List Chunk) (bs : List ℕ)
    (h : (record_until_silence cfg p t0 tD stream).map
          (fun o => (o.calibConsumed, o.bytesOut)) = .ok (cs, bs))
    (hne : cs ≠ []) :
    ((cs.map Chunk.data).drop (cs.length - preRollBlocks cfg p)).flatten <+: bs := by
  cases hr : record_until_silence cfg p t0 tD stream with
  | error e => rw [hr] at h; cases h
  | ok out =>
    rw [hr] at h
    simp only [Except.map, Except.ok.injEq, Prod.mk.injEq] at h
    obtain ⟨cs', s1, stF, mcs, s, hc, hm, ho⟩ := record_ok_elim hr
    have hcs : cs' = cs := by rw [ho] at h; exact h.1
    subst hcs
    have hbs : stF.frames.flatten = bs := by rw [ho] at h; exact h.2
    obtain ⟨l, hl⟩ := mainLoop_frames _ _ _ hm
    have hring : (recSt0 cfg p cs').frames
        = (cs'.map Chunk.data).drop (cs'.length - preRollBlocks cfg p) := by
      show recRing cfg p cs' = _
      unfold recRing
      rw [← List.foldl_map Chunk.data (ringPush (preRollBlocks cfg p)),
        foldl_ringPush_nil]
      simp
    rw [← hbs, hl, hring, List.flatten_append]
    exact List.prefix_append _ _

/-- The three calibration events of the silent-room scenario. -/
def calibS4 : List Chunk := streamS4.take 3

/-- The bytes returned by the silent-room scenario run. -/
def bytesS4 : List ℕ :=
  [0, 1, 2, 100, 101, 102, 200, 201, 202, 203, 204, 300, 301, 302, 303, 304,
   305, 306, 307, 308, 309, 310, 311, 312, 313, 314, 400, 401, 402, 403, 404]

/-- C5 witness: in the silent-room scenario all three calibration frames fit
the 4-block ring and open the returned buffer. -/
theorem C5_pre_roll_prefix_witness :
    ((calibS4.map Chunk.data).drop (calibS4.length - preRollBlocks cfgA pS4)).flatten
      <+: bytesS4 :=
  C5_pre_roll_prefix cfgA pS4 0 4 streamS4 calibS4 bytesS4
    (by with_unfolding_all rfl) (by with_unfolding_all decide)

/-- C6: (1) when zero frames are read — the first event's check time is
already past both the calibration window and the hard deadline —
`record_until_silence` returns the empty byte string (`.ok []`), not an
error; (2) a successful return means every consumed read succeeded: a
failing frame read is never swallowed but propagates to the caller as an
error (no `try/except` guards the reads at lines 196, 224, 252), distinct
from the benign empty return. -/
theorem C6_empty_vs_error :
    (∀ (cfg : RecCfg) (p : RecParams) (t0 tD : ℚ) (c : Chunk) (rest : List Chunk),
      t0 + max 0 p.noise_calib_duration ≤ c.t → tD + p.max_duration ≤ c.t →
      (record_until_silence cfg p t0 tD (c :: rest)).map (fun o => o.bytesOut)
        = .ok []) ∧
    (∀ (cfg : RecCfg) (p : RecParams) (t0 tD : ℚ) (stream consumed : List Chunk),
      (record_until_silence cfg p t0 tD stream).map
          (fun o => o.calibConsumed ++ o.mainConsumed) = .ok consumed →
      ∀ c ∈ consumed, c.ok = true) := by
  constructor
  · intro cfg p t0 tD c rest h1 h2
    have hcal : calibrate (t0 + max 0 p.noise_calib_duration) (c :: rest)
        = .ok ([], c :: rest) := by
      rw [calibrate, if_neg (not_lt.mpr h1)]
    have hml : mainLoop (recCtx cfg p tD []) (c :: rest) (recSt0 cfg p [])
        = .ok (recSt0 cfg p [], [], c :: rest) := by
      rw [mainLoop, if_pos (show (recCtx cfg p tD []).hardDeadline ≤ c.t from h2)]
    simp only [record_until_silence, hcal, hml]
    rfl
  · intro cfg p t0 tD stream consumed h c hcmem
    cases hr : record_until_silence cfg p t0 tD stream with
    | error e => rw [hr] at h; cases h
    | ok out =>
      rw [hr] at h
      simp only [Except.map, Except.ok.injEq] at h
      obtain ⟨cs, s1, stF, mcs, s, hc, hm, ho⟩ := record_ok_elim hr
      rw [← h, ho] at hcmem
      simp only at hcmem
      rcases List.mem_append.mp hcmem with hmem | hmem
      · exact (calibrate_consumed _ _ hc c hmem).2
      · exact (mainLoop_consumed _ _ _ hm c hmem).2

/-- C6 witness: with a single event at `t = 100` (past both windows of the
`pW2` configuration) the call returns `.ok []`; and in the successful
`streamW2` run the consumed first read did succeed. -/
theorem C6_empty_vs_error_witness :
    (record_until_silence cfgA pW2 0 0
        [{ t := 100, ok := true, data := [7], rms := 0 }]).map (fun o => o.bytesOut)
      = .ok [] ∧
    ({ t := 1, ok := true, data := [1], rms := 200 } : Chunk).ok = true :=
  ⟨C6_empty_vs_error.1 cfgA pW2 0 0 { t := 100, ok := true, data := [7], rms := 0 } []
      (by norm_num [pW2]) (by norm_num [pW2]),
   C6_empty_vs_error.2 cfgA pW2 0 0 streamW2 streamW2 (by with_unfolding_all rfl)
      { t := 1, ok := true, data := [1], rms := 200 } (by with_unfolding_all decide)⟩

/-- C7: invoking the Global Interrupt Sequence (`SystemState.interrupt`)
when nothing is speaking and the inter-thread queue is empty raises no
error (the embedded transition is total: the external stop/flush calls in
lines 93–101 are guarded by bare `try/except pass` in the source) and
leaves `is_speaking = false` and `is_listening = true`; in that state a
second invocation produces the same state (idempotent no-op). -/
theorem C7_interrupt_idempotent (s : SystemState)
    (_hsp : s.is_speaking = false) (_hq : s.audio_queue = []) :
    s.interrupt.is_speaking = false ∧ s.interrupt.is_listening = true ∧
    s.interrupt.interrupt = s.interrupt :=
  ⟨rfl, rfl, rfl⟩

/-- C7 witness: the idle state (not speaking, empty queue). -/
theorem C7_interrupt_idempotent_witness :
    sGateOff.interrupt.is_speaking = false ∧ sGateOff.interrupt.is_listening = true ∧
    sGateOff.interrupt.interrupt = sGateOff.interrupt :=
  C7_interrupt_idempotent sGateOff rfl rfl

/-- C8 counterexample: the conversation loop calls `resume_interruption`
before dispatching to the AI (line 536), but `resume_interruption` sets the
gate to the module-level startup flag `allow_interruption`
(`self.allow_listening_to_user = allow_interruption and True`, line 72),
which defaults to false (line 132): in that case the result is
`allow_listening_to_user = false`, not true as the claim states. -/
theorem C8_resume_gate_counterexample :
    (SystemState.resume_interruption false
      { is_listening := true, is_active := true, is_speaking := false,
        allow_listening_to_user := false, audio_queue := [] }).allow_listening_to_user
      = false := rfl

/-- C8 amended: `resume_interruption` sets `allow_listening_to_user` to the
startup flag `allow_interruption` — true exactly when interruption is
enabled at startup — and after the AI response is spoken the loop's
`pause_interruption` (line 555, and line 419 before the next primary
listen) disables the gate again. -/
theorem C8_resume_pause_gate (ai : Bool) (s : SystemState) :
    (s.resume_interruption ai).allow_listening_to_user = ai ∧
    ((s.resume_interruption ai).pause_interruption).allow_listening_to_user = false := by
  refine ⟨?_, rfl⟩
  show (ai && true) = ai
  exact Bool.and_true ai

/-- C9 counterexample: with the gate disabled, one iteration of the
interruption loop performs no effect at all — the effect list is empty, so
in particular no sleep happens before the gate is re-checked (the `if` at
line 359 has no `else` branch; the loop busy-spins), refuting the claim's
"idles with a short sleep". -/
theorem C9_gate_false_counterexample :
    sGateOff.allow_listening_to_user = false ∧
    (interruption_iteration sGateOff (.ok []) (.ok "") (fun _ => false)).2 = [] :=
  ⟨rfl, rfl⟩

/-- C9 amended: in every iteration in which `allow_listening_to_user` is
false the coordinator performs no microphone read — and also no sleep: it
leaves the state unchanged and immediately re-checks the gate. -/
theorem C9_gate_false_no_read (st : SystemState)
    (recResult : Except Unit (List ℕ)) (sttResult : Except Unit String)
    (isStop : String → Bool) (hg : st.allow_listening_to_user = false) :
    interruption_iteration st recResult sttResult isStop = (st, []) := by
  simp [interruption_iteration, hg]

/-- C9 witness: a gate-disabled iteration does nothing even when a capture
would return audio and the transcript would classify as a stop command. -/
theorem C9_gate_false_no_read_witness :
    interruption_iteration sGateOff (.ok [1]) (.ok "stop") (fun _ => true)
      = (sGateOff, []) :=
  C9_gate_false_no_read sGateOff (.ok [1]) (.ok "stop") (fun _ => true) rfl

/-- C10: the pre-roll ring capacity `max(1, pre_roll_bytes // block_size)`
(line 187) is at least one chunk block for every configuration; hence even
with `pre_roll_ms = 0`, when calibration consumed at least one frame, the
last calibration chunk is still seeded and appears as a prefix of the
returned buffer. -/
theorem C10_min_one_preroll_block :
    (∀ (cfg : RecCfg) (p : RecParams), 1 ≤ preRollBlocks cfg p) ∧
    (∀ (cfg : RecCfg) (p : RecParams) (t0 tD : ℚ) (stream : List Chunk)
        (cs : List Chunk) (bs : List ℕ),
      (record_until_silence cfg p t0 tD stream).map
          (fun o => (o.calibConsumed, o.bytesOut)) = .ok (cs, bs) →
      p.pre_roll_ms = 0 → ∀ hne : cs ≠ [], (cs.getLast hne).data <+: bs) := by
  constructor
  · intro cfg p
    have h1 : (1:ℤ) ≤ max 1 ((preRollBytes cfg p).fdiv (blockBytes cfg : ℤ)) :=
      le_max_left _ _
    exact Int.toNat_le_toNat h1
  · intro cfg p t0 tD stream cs bs h hz hne
    have hcap : preRollBlocks cfg p = 1 := by
      unfold preRollBlocks preRollBytes
      rw [hz]
      norm_num [pyInt, Int.zero_tdiv, Int.zero_fdiv]
    cases hr : record_until_silence cfg p t0 tD stream with
    | error e => rw [hr] at h; cases h
    | ok out =>
      rw [hr] at h
      simp only [Except.map, Except.ok.injEq, Prod.mk.injEq] at h
      obtain ⟨cs', s1, stF, mcs, s, hc, hm, ho⟩ := record_ok_elim hr
      have hcs : cs' = cs := by rw [ho] at h; exact h.1
      subst hcs
      have hbs : stF.frames.flatten = bs := by rw [ho] at h; exact h.2
      obtain ⟨l, hl⟩ := mainLoop_frames _ _ _ hm
      have hring : (recSt0 cfg p cs').frames = [(cs'.getLast hne).data] := by
        show recRing cfg p cs' = _
        unfold recRing
        rw [← List.foldl_map Chunk.data (ringPush (preRollBlocks cfg p)),
          foldl_ringPush_nil, hcap, List.length_map, ← List.map_drop,
          drop_len_sub_one cs' hne]
        rfl
      rw [← hbs, hl, hring]
      exact ⟨l.flatten, by simp⟩

/-- The two calibration events of the `p10` run. -/
def calib10 : List Chunk := stream10.take 2

/-- C10 witness: with `pre_roll_ms = 0` the ring still keeps one block, and
the last calibration chunk's bytes `[11]` open the returned buffer. -/
theorem C10_min_one_preroll_block_witness :
    1 ≤ preRollBlocks cfgA p10 ∧
    (calib10.getLast (by with_unfolding_all decide)).data <+: [11, 12, 13, 14] :=
  ⟨C10_min_one_preroll_block.1 cfgA p10,
   C10_min_one_preroll_block.2 cfgA p10 0 4 stream10 calib10 [11, 12, 13, 14]
     (by with_unfolding_all rfl) rfl (by with_unfolding_all decide)⟩

end RobotApp
